import Mathlib

/-!
Verification of the wangler-player playback engine.

Shallow embedding of the playback-engine logic of `src/App.tsx`:
queue/library/recents model, track selection, next/previous policy,
track removal, the crossfade entry condition and ramp schedule, the
volume-write suppression effect, the metadata-resolution event flow,
and dominant-color extraction.  JavaScript numbers used for volumes,
times and durations are modelled as rationals; track ids as integers;
array indices (which may be -1) as integers.
-/

namespace WanglerPlayer

/-- A track reference as held in the queue, library and recents lists.
`id` models the JS numeric id (`Date.now()` / `Math.random() + Date.now()`);
`isFile` models the `isFile && file` shape check of `handleSelectTrack`. -/
structure Track where
  id : Int
  isFile : Bool
  deriving DecidableEq, Repr

/-- The engine state owned by `App`: the three collections, the current
queue index (−1 means nothing active), play state, the bound audio source
(modelled by the id of the track whose object URL is bound, `none` when
`audioSource` is null), the primary audio element's playback position, and
the `isCrossfading` flag. -/
structure EngineState where
  queue : List Track
  library : List Track
  recents : List Track
  currentQueueIndex : Int
  isPlaying : Bool
  audioSource : Option Int
  currentTime : ℚ
  isCrossfading : Bool
  deriving DecidableEq, Repr

/-- Source: `const activeQueue = queue.length > 0 ? queue : libraryTracks`. -/
def activeQueue (s : EngineState) : List Track :=
  if s.queue.length > 0 then s.queue else s.library

/-- Source: `setRecentTracks(prev => [track, ...prev.filter(t => t.id !== track.id)].slice(0, 20))`. -/
def updateRecents (t : Track) (prev : List Track) : List Track :=
  (t :: prev.filter (fun r => r.id != t.id)).take 20

/-- JS `findIndex` (first match, −1 when absent) over track ids. -/
def findIndexById (l : List Track) (tid : Int) : Int :=
  match l.findIdx? (fun q : Track => q.id == tid) with
  | some n => (n : Int)
  | none => -1

/-- The `handleSelectTrack(file, shouldPlay)` handler restricted to track references
(the `file.isFile && file.file` branch and the final `else` branch of the
source; the `file instanceof File` branch is `handleSelectFile` below).
Selecting binds the new object URL (file branch), updates the queue
position — syncing the library into the queue when the track was picked
from the library while absent from the queue — pushes the track onto the
recents list, and starts playback unless `shouldPlay` is false or a
crossfade is active. -/
def handleSelectTrack (s : EngineState) (t : Track) (shouldPlay : Bool) : EngineState :=
  if t.isFile then
    let s1 :=
      match s.queue.findIdx? (fun q : Track => q.id == t.id) with
      | some idx => { s with currentQueueIndex := (idx : Int) }
      | none =>
        match s.library.findIdx? (fun q : Track => q.id == t.id) with
        | some libIdx => { s with queue := s.library, currentQueueIndex := (libIdx : Int) }
        | none => s
    { s1 with
        audioSource := some t.id
        currentTime := 0
        recents := updateRecents t s1.recents
        isPlaying := if shouldPlay && !s.isCrossfading then true else s.isPlaying }
  else
    { s with
        audioSource := none
        currentQueueIndex := findIndexById s.queue t.id
        recents := updateRecents t s.recents
        isPlaying := if shouldPlay && !s.isCrossfading then true else s.isPlaying }

/-- The `handleSelectTrack` handler on a raw `File` input: a transient track with a
fresh id replaces the queue, becomes position 0, enters recents, and is
bound and played. -/
def handleSelectFile (s : EngineState) (newId : Int) : EngineState :=
  let newTrack : Track := { id := newId, isFile := true }
  { s with
      queue := [newTrack]
      currentQueueIndex := 0
      audioSource := some newId
      currentTime := 0
      recents := updateRecents newTrack s.recents
      isPlaying := if !s.isCrossfading then true else s.isPlaying }

/-- The shuffle pick of `handleNextTrack`/`handlePreviousTrack`:
`nextIndex = Math.floor(Math.random() * len)`, then if `len > 1` and the
pick equals `currentQueueIndex`, replace it by `(nextIndex + 1) % len`.
`r` is the random draw (an index `< len`). -/
def shuffleIndex (len : ℕ) (cur : Int) (r : ℕ) : ℕ :=
  if 1 < len ∧ (r : Int) = cur then (r + 1) % len else r

/-- The `handleNextTrack` handler, with the random draw `r` made explicit. -/
def handleNextTrack (s : EngineState) (isShuffle : Bool) (r : ℕ) : EngineState :=
  if 0 < (activeQueue s).length then
    if isShuffle then
      match (activeQueue s).get? (shuffleIndex (activeQueue s).length s.currentQueueIndex r) with
      | some t => handleSelectTrack s t true
      | none => s
    else if s.currentQueueIndex < ((activeQueue s).length : Int) - 1 then
      match (activeQueue s).get? (s.currentQueueIndex + 1).toNat with
      | some t => handleSelectTrack s t true
      | none => s
    else
      { s with isPlaying := false }
  else
    { s with isPlaying := false }

/-- The `handlePreviousTrack` handler, with the random draw `r` made explicit. -/
def handlePreviousTrack (s : EngineState) (isShuffle : Bool) (r : ℕ) : EngineState :=
  if 0 < (activeQueue s).length then
    if s.currentTime > 3 then
      { s with currentTime := 0 }
    else if isShuffle then
      match (activeQueue s).get? (shuffleIndex (activeQueue s).length s.currentQueueIndex r) with
      | some t => handleSelectTrack s t true
      | none => s
    else if s.currentQueueIndex > 0 then
      match (activeQueue s).get? (s.currentQueueIndex - 1).toNat with
      | some t => handleSelectTrack s t true
      | none => s
    else
      { s with currentTime := 0 }
  else
    s

/-- The `handleRemoveTrack(id)` handler: filters the track out of the library, the
queue and the recents; `currentQueueIndex` is not touched. -/
def handleRemoveTrack (s : EngineState) (tid : Int) : EngineState :=
  { s with
      library := s.library.filter (fun t => t.id != tid)
      queue := s.queue.filter (fun t => t.id != tid)
      recents := s.recents.filter (fun t => t.id != tid) }

/-- The `handleAddToQueue` handler: appends a fresh-id track to the queue. -/
def handleAddToQueue (s : EngineState) (newId : Int) : EngineState :=
  { s with queue := s.queue ++ [{ id := newId, isFile := true }] }

/-- The `handlePlayNext` handler: `splice(currentQueueIndex + 1, 0, newTrack)`. -/
def handlePlayNext (s : EngineState) (newId : Int) : EngineState :=
  let i := (s.currentQueueIndex + 1).toNat
  { s with
      queue := s.queue.take i ++ [{ id := newId, isFile := true }] ++ s.queue.drop i }

/-- The initial engine state of `App`. -/
def initialState : EngineState :=
  { queue := []
    library := []
    recents := []
    currentQueueIndex := -1
    isPlaying := false
    audioSource := none
    currentTime := 0
    isCrossfading := false }

/-- The spec's queue-index invariant: `currentQueueIndex` is −1 or a
valid index into the active queue. -/
def indexInvariant (s : EngineState) : Prop :=
  s.currentQueueIndex = -1 ∨
    (0 ≤ s.currentQueueIndex ∧ s.currentQueueIndex < ((activeQueue s).length : Int))

instance (s : EngineState) : Decidable (indexInvariant s) := by
  unfold indexInvariant; infer_instance

/-! ## Volume effect

`useEffect(() => { if (audioRef.current && !isCrossfading) audioRef.current.volume = volume; },
[volume, isCrossfading])`. -/

/-- The volume effect: given the crossfade flag, the primary audio
element's current volume and the user volume state, returns the element
volume after the effect runs. -/
def applyVolumeEffect (isCrossfading : Bool) (elementVolume userVolume : ℚ) : ℚ :=
  if !isCrossfading then userVolume else elementVolume

/-! ## Crossfade engine

The `timeupdate` handler of the crossfade effect and the interval
callback of the ramp (`steps = 20`, `stepTime = crossfadeDuration * 1000 / steps`). -/

/-- Source: `activeQueue[currentQueueIndex + 1]`. -/
def nextTrackOf (s : EngineState) : Option Track :=
  (activeQueue s).get? (s.currentQueueIndex + 1).toNat

/-- The entry condition of `onTimeUpdate`: the crossfade starts on a time
update exactly when the effect is live (`smartCrossfade` on, repeat off)
and none of the early returns fire (`!nextTrack`, `isCrossfading`,
`audio.duration <= crossfadeDuration`) and
`duration - currentTime <= crossfadeDuration`. -/
def crossfadeStarts (smartCrossfade isRepeat : Bool) (duration crossfadeDuration : ℚ)
    (s : EngineState) : Bool :=
  smartCrossfade && !isRepeat && (nextTrackOf s).isSome && !s.isCrossfading &&
    decide (crossfadeDuration < duration) &&
    decide (duration - s.currentTime ≤ crossfadeDuration)

/-- Modelled from the spec's words (claim C3, for comparison with
`crossfadeStarts`): smart-crossfade enabled, repeat off, a next track
exists, not already crossfading, and
`trackDuration − currentTime ≤ crossfadeDurationSeconds`. -/
def crossfadeEntrySpec (smartCrossfade isRepeat nextExists isCrossfading : Bool)
    (duration currentTime crossfadeDuration : ℚ) : Prop :=
  smartCrossfade = true ∧ isRepeat = false ∧ nextExists = true ∧ isCrossfading = false ∧
    duration - currentTime ≤ crossfadeDuration

instance (a b c d : Bool) (x y z : ℚ) : Decidable (crossfadeEntrySpec a b c d x y z) := by
  unfold crossfadeEntrySpec; infer_instance

/-- The amended entry condition: the spec's five conditions plus the
guard the source also checks, `trackDuration > crossfadeDurationSeconds`. -/
def crossfadeEntrySpecAmended (smartCrossfade isRepeat nextExists isCrossfading : Bool)
    (duration currentTime crossfadeDuration : ℚ) : Prop :=
  smartCrossfade = true ∧ isRepeat = false ∧ nextExists = true ∧ isCrossfading = false ∧
    crossfadeDuration < duration ∧ duration - currentTime ≤ crossfadeDuration

/-- Source: `const steps = 20`. -/
def crossfadeSteps : ℕ := 20

/-- Source: `const stepTime = (dspSettings.crossfadeDuration * 1000) / steps`. -/
def crossfadeStepTime (crossfadeDuration : ℚ) : ℚ :=
  crossfadeDuration * 1000 / crossfadeSteps

/-- Source: `audioRef.current.volume = Math.max(0, volume * (1 - progress))`
with `progress = currentStep / steps`. -/
def primaryVolumeAt (volume : ℚ) (step : ℕ) : ℚ :=
  max 0 (volume * (1 - (step : ℚ) / crossfadeSteps))

/-- Source: `crossfadeAudioRef.current.volume = Math.min(volume, volume * progress)`. -/
def secondaryVolumeAt (volume : ℚ) (step : ℕ) : ℚ :=
  min volume (volume * ((step : ℚ) / crossfadeSteps))

/-- The volumes written by the interval callback at ticks `1 .. 20`. -/
def crossfadeSchedule (volume : ℚ) : List (ℚ × ℚ) :=
  (List.range crossfadeSteps).map (fun i => (primaryVolumeAt volume (i + 1), secondaryVolumeAt volume (i + 1)))

/-- Observable result of one interval tick: the engine state, the two
element volumes after the tick, whether the secondary element is still
playing, and whether its temporary object URL has been revoked and its
`src` cleared. -/
structure CrossfadeTickResult where
  state : EngineState
  primaryVolume : ℚ
  secondaryVolume : ℚ
  secondaryPlaying : Bool
  secondarySrcReleased : Bool
  deriving DecidableEq, Repr

/-- One tick of the crossfade interval at tick number `step` (the source
increments `currentStep` before using it, so ticks are numbered from 1).
On `currentStep >= steps` the interval is cleared, `handleNextTrack`
commits the queue advance, `isCrossfading` is reset, the primary volume
is restored to the user volume, and the secondary audio element is paused
and its object URL revoked (`src = ''`). -/
def crossfadeTick (userVolume : ℚ) (step : ℕ) (s : EngineState) (isShuffle : Bool)
    (r : ℕ) : CrossfadeTickResult :=
  if step ≥ crossfadeSteps then
    { state := { handleNextTrack s isShuffle r with isCrossfading := false }
      primaryVolume := userVolume
      secondaryVolume := secondaryVolumeAt userVolume step
      secondaryPlaying := false
      secondarySrcReleased := true }
  else
    { state := s
      primaryVolume := primaryVolumeAt userVolume step
      secondaryVolume := secondaryVolumeAt userVolume step
      secondaryPlaying := true
      secondarySrcReleased := false }

/-! ## Metadata resolution flow

`processFile` (jsmediatags `onSuccess`) and `fetchAICover` each end in an
unconditional `setTrackInfo` / `setAccentColor`: the callbacks close over
the selected file but perform no comparison against the currently active
track when they fire. -/

/-- The metadata-relevant state: the identity of the currently active
(bound) track, the identity of the track whose metadata/artwork/accent
color the UI currently shows, and the resolver tasks still in flight. -/
structure MetaState where
  activeId : Option Int
  displayedId : Option Int
  pending : List Int
  deriving DecidableEq, Repr

/-- Events of the resolution flow: a `selectTrack` call (which binds the
track and spawns its resolver task) and the completion of a resolver task
for a given track. -/
inductive MetaEvent where
  | select (tid : Int)
  | resolve (tid : Int)
  deriving DecidableEq, Repr

/-- One step of the resolution flow as the source implements it: a
resolver completion applies `setTrackInfo`/`setAccentColor` for its track
unconditionally — there is no guard comparing the resolved track identity
against `activeId`. -/
def metaStep (s : MetaState) (e : MetaEvent) : MetaState :=
  match e with
  | .select tid => { s with activeId := some tid, pending := tid :: s.pending }
  | .resolve tid =>
      if tid ∈ s.pending then
        { s with displayedId := some tid, pending := s.pending.erase tid }
      else
        s

/-- Running a sequence of resolution-flow events. -/
def metaRun (events : List MetaEvent) : MetaState :=
  events.foldl metaStep { activeId := none, displayedId := none, pending := [] }

/-! ## Dominant-color extraction

`extractDominantColor`: on image-load failure (or missing canvas context,
or a canvas-read exception) the fallback is returned unchanged; otherwise
the 50×50 RGBA readback is sampled every 16th byte position, per-channel
averages are floored, and each channel is scaled by `255 / max * 0.8`
(floored, capped at 255) when the maximum channel is positive.  Pixel
data is a flattened byte list; `none` models any of the failure paths. -/

structure RGB where
  r : ℕ
  g : ℕ
  b : ℕ
  deriving DecidableEq, Repr

/-- Number of loop iterations of `for (let i = 0; i < imageData.length; i += 16)`. -/
def sampleCount (data : List ℕ) : ℕ :=
  (data.length + 15) / 16

/-- Sum of `imageData[16*k + off]` over the sampled positions. -/
def sumChannel (data : List ℕ) (off : ℕ) : ℕ :=
  ((List.range (sampleCount data)).map (fun k => data.getD (16 * k + off) 0)).sum

/-- Source: `Math.min(255, Math.floor(c * (255 / max) * 0.8))`. -/
def boostChannel (c maxc : ℕ) : ℕ :=
  min 255 (((c : ℚ) * (255 / (maxc : ℚ)) * (8 / 10)).floor.toNat)

/-- The `extractDominantColor` pipeline, with the asynchronous image steps made
explicit: `pixels = none` models image-load/canvas failure. -/
def extractDominantColor (pixels : Option (List ℕ)) (fallback : RGB) : RGB :=
  match pixels with
  | none => fallback
  | some data =>
      let count := sampleCount data
      let r := sumChannel data 0 / count
      let g := sumChannel data 1 / count
      let b := sumChannel data 2 / count
      let m := max r (max g b)
      if 0 < m then
        { r := boostChannel r m, g := boostChannel g m, b := boostChannel b m }
      else
        { r := r, g := g, b := b }

/-! ## Helper lemmas -/

/-- On a list with duplicate-free ids, `findIndex` of the id of the
element at position `n` returns `n`. -/
theorem findIdx_get_of_nodup :
    ∀ (l : List Track) (n : ℕ) (hn : n < l.length),
      (l.map Track.id).Nodup →
      l.findIdx? (fun q : Track => q.id == (l.get ⟨n, hn⟩).id) = some n
  | [], n, hn, _ => by simp at hn
  | a :: l, 0, _, _ => by simp [List.findIdx?_cons]
  | a :: l, n + 1, hn, hnd => by
      have hn' : n < l.length := by simpa using hn
      have hgc : (a :: l).get ⟨n + 1, hn⟩ = l.get ⟨n, hn'⟩ := rfl
      have hmem : (l.get ⟨n, hn'⟩).id ∈ l.map Track.id :=
        List.mem_map_of_mem Track.id (l.get_mem n hn')
      have hane : a.id ∉ l.map Track.id := (List.nodup_cons.mp hnd).1
      have hne : (a.id == ((a :: l).get ⟨n + 1, hn⟩).id) = false := by
        rw [hgc]
        exact beq_eq_false_iff_ne.mpr (fun hEq => hane (hEq ▸ hmem))
      rw [List.findIdx?_cons, hne]
      simp only [Bool.false_eq_true, if_false, List.findIdx?_succ]
      rw [hgc, findIdx_get_of_nodup l n hn' (List.nodup_cons.mp (by simpa using hnd)).2]
      rfl

/-- A file-track selection that finds the track in the queue sets the
index to the found position and binds the track, leaving the queue as is. -/
theorem handleSelectTrack_found_queue (s : EngineState) (t : Track) (b : Bool) (n : ℕ)
    (hf : t.isFile = true)
    (hfind : s.queue.findIdx? (fun q : Track => q.id == t.id) = some n) :
    (handleSelectTrack s t b).currentQueueIndex = (n : Int) ∧
    (handleSelectTrack s t b).audioSource = some t.id := by
  simp [handleSelectTrack, hf, hfind]

/-- A file-track selection absent from the queue but found in the library
syncs the library into the queue and sets the index to the library position. -/
theorem handleSelectTrack_found_library (s : EngineState) (t : Track) (b : Bool) (n : ℕ)
    (hf : t.isFile = true)
    (hq : s.queue.findIdx? (fun q : Track => q.id == t.id) = none)
    (hfind : s.library.findIdx? (fun q : Track => q.id == t.id) = some n) :
    (handleSelectTrack s t b).currentQueueIndex = (n : Int) ∧
    (handleSelectTrack s t b).audioSource = some t.id := by
  simp [handleSelectTrack, hf, hq, hfind]

/-! ## Claim theorems -/

/-- C1: the claim says a resolver result arriving after a track switch is
applied only if the resolved track is still the active track and is
discarded otherwise.  The source applies `setTrackInfo`/`setAccentColor`
in the tag/AI-cover callbacks unconditionally, so after selecting track 1,
selecting track 2 while track 1's resolution is pending, and then letting
track 1's resolution complete, the displayed metadata is track 1's even
though track 2 is the active track — the stale update is not discarded. -/
theorem stale_metadata_overwrites_active :
    (metaRun [MetaEvent.select 1, MetaEvent.select 2, MetaEvent.resolve 1]).activeId = some 2 ∧
    (metaRun [MetaEvent.select 1, MetaEvent.select 2, MetaEvent.resolve 1]).displayedId = some 1 := by
  constructor <;> rfl

/-- C2: the claim says `currentQueueIndex` is always −1 or a valid index
into the active queue, and in particular `removeTrack` preserves this.
The source's `handleRemoveTrack` filters the collections without touching
`currentQueueIndex`: after selecting a local file (queue `[track 1]`,
index 0, empty library) and removing track 1, the index stays 0 while the
active queue is empty — the invariant is broken. -/
theorem removeTrack_breaks_index_invariant :
    indexInvariant (handleSelectFile initialState 1) ∧
    ¬ indexInvariant (handleRemoveTrack (handleSelectFile initialState 1) 1) := by
  constructor
  · right
    constructor <;> decide
  · intro h
    rcases h with h | ⟨-, h⟩
    · exact absurd h (by decide)
    · exact absurd h (by decide)

/-- C5: with shuffle on and an active queue of length `N > 1`, the index
chosen by `next()` is never `currentQueueIndex` (and is in range); with a
single-track active queue the pick is index 0, so the same track may be
reselected. -/
theorem shuffle_never_repeats (len : ℕ) (cur : Int) (r : ℕ) (hr : r < len) :
    (1 < len → ((shuffleIndex len cur r : Int) ≠ cur ∧ shuffleIndex len cur r < len)) ∧
    (len = 1 → shuffleIndex len cur r = 0) := by
  constructor
  · intro hlen
    unfold shuffleIndex
    by_cases hc : (r : Int) = cur
    · rw [if_pos ⟨hlen, hc⟩]
      refine ⟨?_, Nat.mod_lt _ (by omega)⟩
      rcases Nat.lt_or_ge (r + 1) len with hlt | hge
      · rw [Nat.mod_eq_of_lt hlt]
        intro hEq
        omega
      · have hEq : r + 1 = len := by omega
        rw [hEq, Nat.mod_self]
        intro h0
        omega
    · rw [if_neg (fun h => hc h.2)]
      exact ⟨hc, hr⟩
  · intro h1
    subst h1
    unfold shuffleIndex
    rw [if_neg (by rintro ⟨h, -⟩; omega)]
    omega

/-- Witness for C5 at `len = 2`, `cur = 0`, `r = 0`. -/
theorem shuffle_never_repeats_witness :
    0 < 2 ∧
    ((1 < 2 → ((shuffleIndex 2 0 0 : Int) ≠ 0 ∧ shuffleIndex 2 0 0 < 2)) ∧
      (2 = 1 → shuffleIndex 2 0 0 = 0)) :=
  ⟨by decide, shuffle_never_repeats 2 0 0 (by decide)⟩

/-- C6: on a non-empty active queue with shuffle off, `previous()` with
more than 3 seconds elapsed resets the time to 0 and changes nothing else
(in particular `currentQueueIndex`); with at most 3 seconds elapsed and
`currentQueueIndex = 0` it also just resets the time to 0. -/
theorem previous_policy (s : EngineState) (r : ℕ) (hne : 0 < (activeQueue s).length) :
    (s.currentTime > 3 → handlePreviousTrack s false r = { s with currentTime := 0 }) ∧
    (s.currentTime ≤ 3 → s.currentQueueIndex = 0 →
      handlePreviousTrack s false r = { s with currentTime := 0 }) := by
  constructor
  · intro ht
    simp [handlePreviousTrack, hne, ht]
  · intro ht hidx
    simp [handlePreviousTrack, hne, not_lt.mpr ht, hidx]

/-- A concrete state for the C6 witness: a single file-backed track is
the queue, is active, and has played for 5 seconds. -/
def singleTrackState : EngineState :=
  { queue := [{ id := 1, isFile := true }]
    library := []
    recents := []
    currentQueueIndex := 0
    isPlaying := true
    audioSource := some 1
    currentTime := 5
    isCrossfading := false }

/-- Witness for C6 on `singleTrackState`. -/
theorem previous_policy_witness :
    0 < (activeQueue singleTrackState).length ∧
    ((singleTrackState.currentTime > 3 →
        handlePreviousTrack singleTrackState false 0 = { singleTrackState with currentTime := 0 }) ∧
      (singleTrackState.currentTime ≤ 3 → singleTrackState.currentQueueIndex = 0 →
        handlePreviousTrack singleTrackState false 0 = { singleTrackState with currentTime := 0 })) :=
  ⟨by decide, previous_policy singleTrackState 0 (by decide)⟩

/-- A concrete state with two file-backed tracks queued and the first
active: used for the C3 counterexample and the C7 witness. -/
def pairQueueState : EngineState :=
  { queue := [{ id := 1, isFile := true }, { id := 2, isFile := true }]
    library := []
    recents := []
    currentQueueIndex := 0
    isPlaying := true
    audioSource := some 1
    currentTime := 0
    isCrossfading := false }

/-- C3 counterexample: with smart-crossfade on, repeat off, a next track
queued, no crossfade running, `trackDuration = 3` and
`crossfadeDurationSeconds = 3.5`, the claim's conditions hold
(`3 − 0 ≤ 3.5`) at the very first time update, yet the source does not
start the crossfade: its `audio.duration <= crossfadeDuration` early
return fires. -/
theorem crossfade_entry_missing_guard :
    crossfadeEntrySpec true false (nextTrackOf pairQueueState).isSome
      pairQueueState.isCrossfading 3 pairQueueState.currentTime (7 / 2) ∧
    crossfadeStarts true false 3 (7 / 2) pairQueueState = false := by
  constructor
  · refine ⟨rfl, rfl, rfl, rfl, ?_⟩
    norm_num [pairQueueState]
  · have h : ¬((7 : ℚ) / 2 < 3) := by norm_num
    simp [crossfadeStarts, h]

/-- C3 amended: the crossfade is entered from idle on a time update
exactly when the claim's five conditions hold *and additionally*
`trackDuration > crossfadeDurationSeconds`. -/
theorem crossfade_entry_amended (smart isRep : Bool) (duration crossfadeDuration : ℚ)
    (s : EngineState) :
    crossfadeStarts smart isRep duration crossfadeDuration s = true ↔
      crossfadeEntrySpecAmended smart isRep (nextTrackOf s).isSome s.isCrossfading
        duration s.currentTime crossfadeDuration := by
  unfold crossfadeStarts crossfadeEntrySpecAmended
  simp only [Bool.and_eq_true, decide_eq_true_eq, Bool.not_eq_true']
  tauto

/-- C4: the crossfade ramp schedule has exactly 20 steps at interval
`crossfadeDuration * 1000 / 20` ms; at tick `k ≤ 20` of a ramp started at
user volume `V ∈ [0,1]` the primary volume is `V * (1 − k/20)` and the
secondary `V * (k/20)`; and the final tick (k = 20) commits the queue
advance, clears `isCrossfading`, restores the primary volume to `V`,
pauses the secondary source and releases its temporary URL. -/
theorem crossfade_ramp (V d : ℚ) (k : ℕ) (s : EngineState) (sh : Bool) (r : ℕ)
    (hV0 : 0 ≤ V) (hV1 : V ≤ 1) (hk : k ≤ 20) :
    (crossfadeSchedule V).length = 20 ∧
    crossfadeStepTime d = d * 1000 / 20 ∧
    primaryVolumeAt V k = V * (1 - (k : ℚ) / 20) ∧
    secondaryVolumeAt V k = V * ((k : ℚ) / 20) ∧
    (crossfadeTick V 20 s sh r).state = { handleNextTrack s sh r with isCrossfading := false } ∧
    (crossfadeTick V 20 s sh r).primaryVolume = V ∧
    (crossfadeTick V 20 s sh r).secondaryPlaying = false ∧
    (crossfadeTick V 20 s sh r).secondarySrcReleased = true := by
  have hcs : ((crossfadeSteps : ℕ) : ℚ) = 20 := by norm_num [crossfadeSteps]
  have hk20 : (k : ℚ) / 20 ≤ 1 := by
    rw [div_le_one (by norm_num : (0 : ℚ) < 20)]
    exact_mod_cast hk
  have hsub : (0 : ℚ) ≤ 1 - (k : ℚ) / 20 := by linarith
  refine ⟨?_, ?_, ?_, ?_, rfl, rfl, rfl, rfl⟩
  · simp [crossfadeSchedule, crossfadeSteps]
  · simp only [crossfadeStepTime, hcs]
  · simp only [primaryVolumeAt, hcs]
    exact max_eq_right (mul_nonneg hV0 hsub)
  · simp only [secondaryVolumeAt, hcs]
    exact min_eq_right (mul_le_of_le_one_right hV0 hk20)

/-- Witness for C4 at `V = 1`, `d = 7/2`, `k = 7` on `singleTrackState`. -/
theorem crossfade_ramp_witness :
    ((0 : ℚ) ≤ 1 ∧ (1 : ℚ) ≤ 1 ∧ 7 ≤ 20) ∧
    ((crossfadeSchedule 1).length = 20 ∧
      crossfadeStepTime (7 / 2) = 7 / 2 * 1000 / 20 ∧
      primaryVolumeAt 1 7 = 1 * (1 - ((7 : ℕ) : ℚ) / 20) ∧
      secondaryVolumeAt 1 7 = 1 * (((7 : ℕ) : ℚ) / 20) ∧
      (crossfadeTick 1 20 singleTrackState false 0).state =
        { handleNextTrack singleTrackState false 0 with isCrossfading := false } ∧
      (crossfadeTick 1 20 singleTrackState false 0).primaryVolume = 1 ∧
      (crossfadeTick 1 20 singleTrackState false 0).secondaryPlaying = false ∧
      (crossfadeTick 1 20 singleTrackState false 0).secondarySrcReleased = true) :=
  ⟨⟨zero_le_one, le_refl 1, by decide⟩,
    crossfade_ramp 1 (7 / 2) 7 singleTrackState false 0 zero_le_one (le_refl 1) (by decide)⟩

/-- C7: with shuffle off, on an engine state whose collections have
duplicate-free ids: when the next position holds a file-backed track,
`next()` advances `currentQueueIndex` by 1 and activates (binds) that
track; when `currentQueueIndex` is already at (or beyond) the last index
of a non-empty active queue, `next()` only sets `isPlaying` to false; and
with both queue and library empty, `next()` only sets `isPlaying` to
false (so it stays false) and `previous()` is a no-op. -/
theorem next_policy (s : EngineState) (r : ℕ)
    (hndq : (s.queue.map Track.id).Nodup) (hndl : (s.library.map Track.id).Nodup) :
    (∀ t : Track, -1 ≤ s.currentQueueIndex → nextTrackOf s = some t → t.isFile = true →
      (handleNextTrack s false r).currentQueueIndex = s.currentQueueIndex + 1 ∧
      (handleNextTrack s false r).audioSource = some t.id) ∧
    (0 < (activeQueue s).length →
      ¬(s.currentQueueIndex < ((activeQueue s).length : Int) - 1) →
      handleNextTrack s false r = { s with isPlaying := false }) ∧
    (s.queue = [] → s.library = [] →
      handleNextTrack s false r = { s with isPlaying := false } ∧
      handlePreviousTrack s false r = s) := by
  refine ⟨?_, ?_, ?_⟩
  · intro t hlo hnt hf
    have hnn : 0 ≤ s.currentQueueIndex + 1 := by omega
    have hcast : (((s.currentQueueIndex + 1).toNat : ℕ) : Int) = s.currentQueueIndex + 1 :=
      Int.toNat_of_nonneg hnn
    unfold nextTrackOf at hnt
    rw [List.get?_eq_getElem?] at hnt
    obtain ⟨hlen, hget⟩ := List.getElem?_eq_some.mp hnt
    have hpos : 0 < (activeQueue s).length := by omega
    have hlt : s.currentQueueIndex < ((activeQueue s).length : Int) - 1 := by omega
    have hstep : handleNextTrack s false r = handleSelectTrack s t true := by
      unfold handleNextTrack
      rw [if_pos hpos]
      simp only [Bool.false_eq_true, if_false]
      rw [if_pos hlt, List.get?_eq_getElem?, hnt]
    rw [hstep]
    by_cases hq : 0 < s.queue.length
    · have haq : activeQueue s = s.queue := if_pos hq
      rw [haq] at hnt
      obtain ⟨hlen2, hget2⟩ := List.getElem?_eq_some.mp hnt
      have hgq : s.queue.get ⟨(s.currentQueueIndex + 1).toNat, hlen2⟩ = t := by
        rw [List.get_eq_getElem]
        exact hget2
      have hfind := findIdx_get_of_nodup s.queue (s.currentQueueIndex + 1).toNat hlen2 hndq
      rw [hgq] at hfind
      have h := handleSelectTrack_found_queue s t true _ hf hfind
      rw [hcast] at h
      exact h
    · have hqe : s.queue = [] := List.eq_nil_of_length_eq_zero (by omega)
      have haq : activeQueue s = s.library := by
        unfold activeQueue
        rw [hqe]
        rfl
      rw [haq] at hnt
      obtain ⟨hlen2, hget2⟩ := List.getElem?_eq_some.mp hnt
      have hgq : s.library.get ⟨(s.currentQueueIndex + 1).toNat, hlen2⟩ = t := by
        rw [List.get_eq_getElem]
        exact hget2
      have hfind := findIdx_get_of_nodup s.library (s.currentQueueIndex + 1).toNat hlen2 hndl
      rw [hgq] at hfind
      have hqnone : s.queue.findIdx? (fun q : Track => q.id == t.id) = none := by
        rw [hqe]
        rfl
      have h := handleSelectTrack_found_library s t true _ hf hqnone hfind
      rw [hcast] at h
      exact h
  · intro hpos hnlt
    unfold handleNextTrack
    rw [if_pos hpos]
    simp only [Bool.false_eq_true, if_false]
    rw [if_neg hnlt]
  · intro hq hl
    have hlen : (activeQueue s).length = 0 := by
      unfold activeQueue
      rw [hq, hl]
      simp
    constructor
    · unfold handleNextTrack
      rw [if_neg (by omega)]
    · unfold handlePreviousTrack
      rw [if_neg (by omega)]

/-- Witness for C7 on `pairQueueState` (queue `[1, 2]`, index 0). -/
theorem next_policy_witness :
    ((pairQueueState.queue.map Track.id).Nodup ∧ (pairQueueState.library.map Track.id).Nodup) ∧
    ((∀ t : Track, -1 ≤ pairQueueState.currentQueueIndex →
        nextTrackOf pairQueueState = some t → t.isFile = true →
        (handleNextTrack pairQueueState false 0).currentQueueIndex =
          pairQueueState.currentQueueIndex + 1 ∧
        (handleNextTrack pairQueueState false 0).audioSource = some t.id) ∧
      (0 < (activeQueue pairQueueState).length →
        ¬(pairQueueState.currentQueueIndex < ((activeQueue pairQueueState).length : Int) - 1) →
        handleNextTrack pairQueueState false 0 = { pairQueueState with isPlaying := false }) ∧
      (pairQueueState.queue = [] → pairQueueState.library = [] →
        handleNextTrack pairQueueState false 0 = { pairQueueState with isPlaying := false } ∧
        handlePreviousTrack pairQueueState false 0 = pairQueueState)) :=
  ⟨⟨by decide, by decide⟩, next_policy pairQueueState 0 (by decide) (by decide)⟩

/-- C8: while `isCrossfading` is true, the user-volume effect does not
write the primary audio element's volume: the element keeps its current
volume, whatever the user volume state is. -/
theorem volume_writes_suppressed_while_crossfading (elementVolume userVolume : ℚ) :
    applyVolumeEffect true elementVolume userVolume = elementVolume := rfl

/-- Summing a pointwise-constant function over `List.range n`. -/
theorem sum_map_range_eq (n c : ℕ) (f : ℕ → ℕ) (h : ∀ k < n, f k = c) :
    ((List.range n).map f).sum = n * c := by
  induction n with
  | zero => simp
  | succ m ih =>
      rw [List.range_succ, List.map_append, List.sum_append,
        ih (fun k hk => h k (by omega))]
      simp [h m (by omega)]
      ring

/-- The primitive `Rat.floor` agrees with the `FloorRing` floor. -/
theorem rat_floor_eq_intFloor (q : ℚ) : q.floor = ⌊q⌋ := by
  rw [Rat.floor_def' q, Rat.floor_def]

/-- Evaluation: `Math.min(255, Math.floor(255 * (255/255) * 0.8)) = 204`. -/
theorem boostChannel_red : boostChannel 255 255 = 204 := by
  unfold boostChannel
  rw [show ((255 : ℕ) : ℚ) * (255 / ((255 : ℕ) : ℚ)) * (8 / 10) = 204 by norm_num]
  rw [rat_floor_eq_intFloor, show ((204 : ℚ)) = ((204 : ℤ) : ℚ) by norm_num,
    Int.floor_intCast]
  rfl

/-- A zero channel stays zero under the saturation boost. -/
theorem boostChannel_zero (m : ℕ) : boostChannel 0 m = 0 := by
  unfold boostChannel
  rw [show ((0 : ℕ) : ℚ) * (255 / (m : ℚ)) * (8 / 10) = 0 by push_cast; ring]
  rw [rat_floor_eq_intFloor, Int.floor_zero]
  rfl

/-- C9: when every sampled pixel of the canvas readback is pure red
(255, 0, 0), the extracted color has its red channel strictly above both
green and blue after the saturation boost (it is rgb(204, 0, 0)); and on
image-load/canvas failure the supplied fallback is returned unchanged. -/
theorem dominant_color_red (data : List ℕ) (fb : RGB)
    (hcount : 0 < sampleCount data)
    (hred : ∀ k < sampleCount data,
      data.getD (16 * k) 0 = 255 ∧ data.getD (16 * k + 1) 0 = 0 ∧
        data.getD (16 * k + 2) 0 = 0) :
    ((extractDominantColor (some data) fb).g < (extractDominantColor (some data) fb).r ∧
      (extractDominantColor (some data) fb).b < (extractDominantColor (some data) fb).r) ∧
    (∀ fb2 : RGB, extractDominantColor none fb2 = fb2) := by
  have hr : sumChannel data 0 = sampleCount data * 255 := by
    unfold sumChannel
    exact sum_map_range_eq _ 255 _ (fun k hk => by simpa using (hred k hk).1)
  have hg : sumChannel data 1 = 0 := by
    unfold sumChannel
    rw [sum_map_range_eq _ 0 _ (fun k hk => (hred k hk).2.1)]
    exact Nat.mul_zero _
  have hb : sumChannel data 2 = 0 := by
    unfold sumChannel
    rw [sum_map_range_eq _ 0 _ (fun k hk => (hred k hk).2.2)]
    exact Nat.mul_zero _
  have hrr : sumChannel data 0 / sampleCount data = 255 := by
    rw [hr, Nat.mul_div_cancel_left _ hcount]
  have hgg : sumChannel data 1 / sampleCount data = 0 := by
    rw [hg]
    exact Nat.zero_div _
  have hbb : sumChannel data 2 / sampleCount data = 0 := by
    rw [hb]
    exact Nat.zero_div _
  have hmain : extractDominantColor (some data) fb = { r := 204, g := 0, b := 0 } := by
    unfold extractDominantColor
    simp only [hrr, hgg, hbb]
    rw [if_pos (by norm_num)]
    rw [show max 255 (max 0 0) = 255 by norm_num]
    rw [boostChannel_red, boostChannel_zero]
  rw [hmain]
  exact ⟨⟨by norm_num, by norm_num⟩, fun fb2 => rfl⟩

/-- Witness for C9: a 4-pixel readback, pixels `(255,0,0,255)`, of which
the sampling loop visits exactly the first. -/
theorem dominant_color_red_witness :
    (0 < sampleCount (List.flatten (List.replicate 4 [255, 0, 0, 255])) ∧
      ∀ k < sampleCount (List.flatten (List.replicate 4 [255, 0, 0, 255])),
        (List.flatten (List.replicate 4 [255, 0, 0, 255])).getD (16 * k) 0 = 255 ∧
        (List.flatten (List.replicate 4 [255, 0, 0, 255])).getD (16 * k + 1) 0 = 0 ∧
        (List.flatten (List.replicate 4 [255, 0, 0, 255])).getD (16 * k + 2) 0 = 0) ∧
    (((extractDominantColor (some (List.flatten (List.replicate 4 [255, 0, 0, 255])))
          { r := 234, g := 179, b := 8 }).g <
        (extractDominantColor (some (List.flatten (List.replicate 4 [255, 0, 0, 255])))
          { r := 234, g := 179, b := 8 }).r ∧
      (extractDominantColor (some (List.flatten (List.replicate 4 [255, 0, 0, 255])))
          { r := 234, g := 179, b := 8 }).b <
        (extractDominantColor (some (List.flatten (List.replicate 4 [255, 0, 0, 255])))
          { r := 234, g := 179, b := 8 }).r) ∧
      (∀ fb2 : RGB, extractDominantColor none fb2 = fb2)) :=
  ⟨⟨by decide, by decide⟩,
    dominant_color_red (List.flatten (List.replicate 4 [255, 0, 0, 255]))
      { r := 234, g := 179, b := 8 } (by decide) (by decide)⟩

/-! ## Recents invariant (C10) -/

/-- Both branches of `handleSelectTrack` push the selected track onto the
recents list the same way. -/
theorem recents_handleSelectTrack (s : EngineState) (t : Track) (b : Bool) :
    (handleSelectTrack s t b).recents = updateRecents t s.recents := by
  unfold handleSelectTrack
  by_cases hf : t.isFile = true
  · rw [if_pos hf]
    rcases hq : s.queue.findIdx? (fun q : Track => q.id == t.id) with _ | idx
    · rcases hl : s.library.findIdx? (fun q : Track => q.id == t.id) with _ | li
      · simp [hq, hl]
      · simp [hq, hl]
    · simp [hq]
  · rw [if_neg hf]

/-- A sequence of `selectTrack` calls. -/
def selectAll (s : EngineState) (ts : List Track) : EngineState :=
  ts.foldl (fun s t => handleSelectTrack s t true) s

theorem selectAll_recents : ∀ (ts : List Track) (s : EngineState),
    (selectAll s ts).recents = ts.foldl (fun acc t => updateRecents t acc) s.recents
  | [], _ => rfl
  | t :: ts, s => by
      show (selectAll (handleSelectTrack s t true) ts).recents = _
      rw [selectAll_recents ts (handleSelectTrack s t true), recents_handleSelectTrack]
      rfl

theorem updateRecents_length (t : Track) (prev : List Track) :
    (updateRecents t prev).length ≤ 20 := by
  unfold updateRecents
  rw [List.length_take]
  exact min_le_left _ _

theorem updateRecents_head (t : Track) (prev : List Track) :
    (updateRecents t prev).head? = some t := by
  unfold updateRecents
  rw [List.head?_take]
  simp

theorem updateRecents_nodup (t : Track) (prev : List Track)
    (h : (prev.map Track.id).Nodup) :
    ((updateRecents t prev).map Track.id).Nodup := by
  unfold updateRecents
  apply List.Nodup.sublist (List.Sublist.map Track.id (List.take_sublist 20 _))
  rw [List.map_cons, List.nodup_cons]
  refine ⟨?_, List.Nodup.sublist (List.Sublist.map Track.id (List.filter_sublist prev)) h⟩
  intro hmem
  obtain ⟨q, hqmem, hqid⟩ := List.mem_map.mp hmem
  have hne := (List.mem_filter.mp hqmem).2
  rw [bne_iff_ne] at hne
  exact hne hqid

theorem foldl_updateRecents_nodup : ∀ (ts : List Track) (acc : List Track),
    (acc.map Track.id).Nodup →
    ((ts.foldl (fun a t => updateRecents t a) acc).map Track.id).Nodup
  | [], _, h => h
  | t :: ts, acc, h => foldl_updateRecents_nodup ts _ (updateRecents_nodup t acc h)

/-- C10: after any sequence of `selectTrack` calls from the initial state
ending with track `t`, the recents list has at most 20 entries, has no
two entries with the same id, and begins with `t`. -/
theorem recents_invariant (ts : List Track) (t : Track) :
    (selectAll initialState (ts ++ [t])).recents.length ≤ 20 ∧
    ((selectAll initialState (ts ++ [t])).recents.map Track.id).Nodup ∧
    (selectAll initialState (ts ++ [t])).recents.head? = some t := by
  rw [selectAll_recents]
  simp only [List.foldl_append, List.foldl_cons, List.foldl_nil]
  refine ⟨updateRecents_length _ _, ?_, updateRecents_head _ _⟩
  exact updateRecents_nodup _ _
    (foldl_updateRecents_nodup ts _ (by simp [initialState]))

end WanglerPlayer
